import Mathlib

/-!
Shallow embedding of the Eterna-Core lifecycle runtime.

Sources embedded here:
- src/src/common/app.ts (Application state machine: start, stop,
  performShutdown, cleanupModules, createShutdownTimeout, addModule).
- src/unnamed/part_000 (TickLoader: load at lines 51-84, unload at
  lines 86-92, the repeating tick body at lines 65-80).
- src/src/common/middleware/Events/event.client.middleware.ts
  (ContextEventMiddlewareFactory.create, ContextTickMiddlewareFactory.create).

JavaScript values relevant to the runtime are modelled by an inductive
covering booleans, null, undefined, numbers, strings and Context objects;
a promise is modelled by its eventual resolution value; an async function
that may reject is modelled with Except.
-/

/-- JavaScript runtime values that can flow through a wrapped handler.
The vContext constructor stands for a Context object created by the
context middleware, carrying its label and its kind tag. -/
inductive JSValue where
  | vBool (b : Bool)
  | vNull
  | vUndefined
  | vNum (n : Int)
  | vStr (s : String)
  | vContext (label : String) (kind : String)
deriving DecidableEq

/-- Strict triple-equality test against the literal false, from the check
result === false in the tick body (src/unnamed/part_000 line 69). Only
the boolean value false passes; null, undefined, 0 and the empty string
do not. -/
def strictEqFalse : JSValue → Bool
  | JSValue.vBool false => true
  | _ => false

/-- Event handler metadata as read by the loaders: declared event name,
method name and whether a Context argument is injected. -/
structure EventMetadata where
  name : String
  methodName : String
  context : Bool
deriving DecidableEq

/-- Tick handler metadata: declared task name, re-arm interval in
milliseconds and whether a Context argument is injected. -/
structure TickMetadata where
  name : String
  interval : Nat
  context : Bool
deriving DecidableEq

/-- Observable events produced by one invocation of a middleware-wrapped
handler: Context start, Context stop, and an error being logged. -/
inductive TraceEvent where
  | ctxStart
  | ctxStop
  | errorLogged
deriving DecidableEq

/-- Result of invoking a (possibly middleware-wrapped) handler once: the
ordered trace of observable events, and the outcome, which is either a
returned JSValue or a raised exception carried as a message. -/
structure MwResult where
  trace : List TraceEvent
  outcome : Except String JSValue

/-- A middleware or wrapped handler: a function from the argument list of
one invocation to the result of that invocation. -/
abbrev Middleware := List JSValue → MwResult

/-- Arguments the event context middleware forwards to the inner handler
(src event.client.middleware.ts lines 41-45): when the metadata declares
context the fresh Context object is prepended, otherwise the argument
list is forwarded unchanged. -/
def eventForward (event : EventMetadata) (args : List JSValue) : List JSValue :=
  if event.context then
    JSValue.vContext (event.name ++ "_" ++ event.methodName) "event" :: args
  else args

/-- Arguments the tick context middleware forwards to the inner handler
(src event.client.middleware.ts lines 62-66). -/
def tickForward (tick : TickMetadata) (args : List JSValue) : List JSValue :=
  if tick.context then
    JSValue.vContext (tick.name) "tick" :: args
  else args

/-- Context middleware for the event family, embedding
ContextEventMiddlewareFactory.create (event.client.middleware.ts lines
34-51): a fresh Context is created for the invocation, started before the
forwarded call, and the finally block stops it on both the normal return
path and the exception path, while the outcome of the inner call passes
through unchanged. -/
def ContextEventMiddlewareFactory.create
    (event : EventMetadata) (next : Middleware) : Middleware :=
  fun args =>
    let inner := next (eventForward event args)
    { trace := TraceEvent.ctxStart :: inner.trace ++ [TraceEvent.ctxStop],
      outcome := inner.outcome }

/-- Context middleware for the tick family, embedding
ContextTickMiddlewareFactory.create (event.client.middleware.ts lines
55-72), identical in shape to the event variant but labelled by the tick
metadata. -/
def ContextTickMiddlewareFactory.create
    (tick : TickMetadata) (next : Middleware) : Middleware :=
  fun args =>
    let inner := next (tickForward tick args)
    { trace := TraceEvent.ctxStart :: inner.trace ++ [TraceEvent.ctxStop],
      outcome := inner.outcome }

/-- Modelled from the spec: the repository file
src/common/middleware/log.middleware.ts (LogMiddlewareFactory) is imported
by the chain factories but is not present under src/. Spec section 7
states that a HandlerInvocationError is caught per-invocation inside the
tick and event middleware, logged, and never propagated past the
middleware boundary; on success the inner result is forwarded unchanged.
A JavaScript function whose catch block does not return yields undefined. -/
def LogMiddlewareFactory.create (next : Middleware) : Middleware :=
  fun args =>
    let inner := next args
    match inner.outcome with
    | Except.ok v =>
        { trace := inner.trace, outcome := Except.ok v }
    | Except.error _ =>
        { trace := inner.trace ++ [TraceEvent.errorLogged],
          outcome := Except.ok JSValue.vUndefined }

/-- Modelled from the spec: the tick middleware chain factory
(src/common/middleware/Tick/middleware.tick.server.ts) is not present
under src/. Spec section 4.5 fixes the chain as logging outermost and the
context middleware between it and the raw handler, exactly as the event
chain present in source (ChainMiddlewareEventClientFactory.create) does
for the event family. -/
def ChainMiddlewareTickFactory.create
    (tick : TickMetadata) (next : Middleware) : Middleware :=
  LogMiddlewareFactory.create (ContextTickMiddlewareFactory.create tick next)

/-- Outcome of one invocation of a raw provider method: it either returns
a value or throws. -/
inductive HandlerOutcome where
  | returns (v : JSValue)
  | throws (e : String)
deriving DecidableEq

/-- A raw provider method as a Middleware: it ignores its arguments for
tracing purposes and produces the given outcome. -/
def handlerMw (o : HandlerOutcome) : Middleware :=
  fun _ =>
    match o with
    | HandlerOutcome.returns v => { trace := [], outcome := Except.ok v }
    | HandlerOutcome.throws e => { trace := [], outcome := Except.error e }

/-- State of one registered tick task as driven by the scheduler: whether
the registration is still armed, how many handler invocation attempts
have occurred, how many errors were logged, and the delay inserted at the
end of the last completed iteration. -/
structure TickState where
  armed : Bool
  invocations : Nat
  errorsLogged : Nat
  lastDelay : Nat
deriving DecidableEq

/-- Initial state of a freshly registered tick task. -/
def initTickState : TickState :=
  { armed := true, invocations := 0, errorsLogged := 0, lastDelay := 0 }

/-- Number of errorLogged events in a trace. -/
def countErrorLogged (tr : List TraceEvent) : Nat :=
  tr.countP (fun t => t == TraceEvent.errorLogged)

/-- One scheduler iteration of the tick body registered by TickLoader.load
(src/unnamed/part_000 lines 65-80). The function mw gives the result of
the n-th invocation of methodWithMiddleware. If the registration was
cleared the scheduler no longer invokes the body. Otherwise the wrapped
handler is invoked: a result strictly equal to false clears the own
registration and returns before the sleep; an exception is caught by the
empty catch block and the iteration falls through to the sleep; otherwise
the body sleeps for the metadata interval when it is positive and not at
all when it is zero. -/
def tickStep (interval : Nat) (mw : Nat → MwResult) (s : TickState) : TickState :=
  if s.armed then
    let res := mw s.invocations
    let s1 : TickState :=
      { s with
        invocations := s.invocations + 1,
        errorsLogged := s.errorsLogged + countErrorLogged res.trace }
    match res.outcome with
    | Except.ok v =>
        if strictEqFalse v then
          { s1 with armed := false, lastDelay := 0 }
        else
          { s1 with lastDelay := if interval > 0 then interval else 0 }
    | Except.error _ =>
        { s1 with lastDelay := if interval > 0 then interval else 0 }
  else s

/-- Runs n scheduler iterations of one tick task. -/
def runTicks (interval : Nat) (mw : Nat → MwResult) : Nat → TickState → TickState
  | 0, s => s
  | Nat.succ n, s => runTicks interval mw n (tickStep interval mw s)

/-- The fully wrapped tick handler that TickLoader.load registers: the
middleware chain applied to the provider method, invoked with no
arguments (src/unnamed/part_000 line 67), where beh n is the behavior of
the raw method on its n-th invocation. -/
def wrappedTick (tick : TickMetadata) (beh : Nat → HandlerOutcome) : Nat → MwResult :=
  fun n => ChainMiddlewareTickFactory.create tick (handlerMw (beh n)) []

example : (wrappedTick { name := "t", interval := 0, context := false }
    (fun _ => HandlerOutcome.throws "x") 0).outcome = Except.ok JSValue.vUndefined := rfl

example :
    (runTicks 0 (wrappedTick { name := "t", interval := 0, context := false }
      (fun _ => HandlerOutcome.throws "x")) 3 initTickState).invocations = 3 := rfl

/-- Platform tick scheduler, modelled at its interface boundary: setTick
registers a repeating task and returns a fresh handle, clearTick removes
the registration for a handle. Handles are allocated from a counter, so
every live handle is below nextId. -/
structure Scheduler where
  nextId : Nat
  active : List Nat
deriving DecidableEq

/-- Registers a repeating task and returns its fresh handle. -/
def setTick (s : Scheduler) : Nat × Scheduler :=
  (s.nextId, { nextId := s.nextId + 1, active := s.active ++ [s.nextId] })

/-- Cancels the registration behind one handle. -/
def clearTick (id : Nat) (s : Scheduler) : Scheduler :=
  { s with active := s.active.filter (fun y => y != id) }

/-- Cancels a list of handles in order. -/
def clearAll (ids : List Nat) (s : Scheduler) : Scheduler :=
  ids.foldl (fun sc id => clearTick id sc) s

/-- Effect of cancelling a list of handles on the active-registration
list alone. -/
def clearActiveList (ids : List Nat) (act : List Nat) : List Nat :=
  ids.foldl (fun a id => a.filter (fun y => y != id)) act

/-- State owned by a TickLoader: the handle collection this.ticks. -/
structure TickLoaderState where
  ticks : List Nat
deriving DecidableEq

/-- TickLoader.load (src/unnamed/part_000 lines 51-84) restricted to its
registration effect: for every tick-annotated method of the provider it
registers one repeating task with the scheduler and pushes the returned
handle onto this.ticks. The provider is represented by the list of its
tick metadata entries. -/
def TickLoader.load (tickMethods : List TickMetadata)
    (l : TickLoaderState) (s : Scheduler) : TickLoaderState × Scheduler :=
  tickMethods.foldl
    (fun acc _ =>
      let r := setTick acc.2
      ({ ticks := acc.1.ticks ++ [r.1] }, r.2))
    (l, s)

/-- TickLoader.unload (src/unnamed/part_000 lines 86-92): clears every
stored handle and resets this.ticks to the empty list. -/
def TickLoader.unload (l : TickLoaderState) (s : Scheduler) :
    TickLoaderState × Scheduler :=
  ({ ticks := [] }, clearAll l.ticks s)

/-- Application lifecycle states (src/src/common/app.ts lines 8-13). -/
inductive ApplicationState where
  | STOPPED
  | STARTING
  | RUNNING
  | STOPPING
deriving DecidableEq

/-- Environment of one performShutdown run: the outcome of the Stop
once-event trigger, the outcome of each cleanup of a registered module,
and the outcome of the ModuleLoader unload. -/
structure PerfEnv where
  triggerStopResult : Except String Unit
  moduleCleanupResults : List (Except String Unit)
  moduleUnloadResult : Except String Unit

/-- Observable result of one performShutdown run: the boolean it returns,
the value it passes to the shutdown resolver, whether the bookkeeping
cleanup ran, how many module cleanups were attempted and how many cleanup
errors were logged and swallowed. -/
structure PerfOutcome where
  result : Bool
  resolvedWith : Bool
  bookkeepingCleared : Bool
  moduleCleanupAttempts : Nat
  cleanupErrorsLogged : Nat

/-- Application.cleanupModules (app.ts lines 384-398): every module
cleanup is attempted, an error is logged and swallowed per failing
module, and nothing propagates. The returned number counts the logged
errors. -/
def Application.cleanupModules (results : List (Except String Unit)) : Nat :=
  results.countP (fun r =>
    match r with
    | Except.error _ => true
    | Except.ok _ => false)

/-- Application.performShutdown (app.ts lines 343-374): triggers the Stop
once-event, cleans up all modules with per-module errors swallowed,
unloads the ModuleLoader, removes listeners, resolves the shutdown
promise with true and returns true; on any exception on that path the
catch block logs, resolves the shutdown promise with false, and returns
false. Bookkeeping is reset on both paths. -/
def Application.performShutdown (env : PerfEnv) : PerfOutcome :=
  match env.triggerStopResult with
  | Except.error _ =>
      { result := false, resolvedWith := false, bookkeepingCleared := true,
        moduleCleanupAttempts := 0, cleanupErrorsLogged := 0 }
  | Except.ok _ =>
      match env.moduleUnloadResult with
      | Except.error _ =>
          { result := false, resolvedWith := false, bookkeepingCleared := true,
            moduleCleanupAttempts := env.moduleCleanupResults.length,
            cleanupErrorsLogged := Application.cleanupModules env.moduleCleanupResults }
      | Except.ok _ =>
          { result := true, resolvedWith := true, bookkeepingCleared := true,
            moduleCleanupAttempts := env.moduleCleanupResults.length,
            cleanupErrorsLogged := Application.cleanupModules env.moduleCleanupResults }

/-- Timing environment of one stop call: the performShutdown step
outcomes, the number of milliseconds performShutdown needs to complete,
and the configured gracefulShutdownTimeout. -/
structure StopEnv where
  perf : PerfEnv
  perfDuration : Nat
  timeoutMs : Nat

/-- Application state visible to a stop call: the lifecycle state and the
pending shutdown promise, represented by its eventual resolution value,
or none when the field is null. -/
structure Application where
  state : ApplicationState
  shutdownPromise : Option Bool

/-- What one call of Application.stop produces: the boolean the caller
awaits, the application state when the call returns, the number of
performShutdown executions this call started, and the milliseconds until
the call resolved. -/
structure StopResult where
  result : Bool
  app : Application
  shutdownsStarted : Nat
  elapsed : Nat

/-- Application.stop (app.ts lines 137-166). In STOPPED it logs and
returns true at once. In STOPPING it returns the pending shutdown
promise, or an immediately resolved true when that field is null, and
starts nothing. Otherwise it sets STOPPING, races performShutdown against
createShutdownTimeout (app.ts lines 426-435), which resolves false after
timeoutMs, sets the state to STOPPED on both the try and the catch path,
and returns the winner of the race: performShutdown wins exactly when it
completes strictly before the timer fires. When the timer wins, the
shutdown promise is still pending when stop returns and later resolves
with the value performShutdown passes to the resolver. -/
def Application.stop (app : Application) (env : StopEnv) : StopResult :=
  if app.state = ApplicationState.STOPPED then
    { result := true, app := app, shutdownsStarted := 0, elapsed := 0 }
  else if app.state = ApplicationState.STOPPING then
    { result := app.shutdownPromise.getD true, app := app,
      shutdownsStarted := 0, elapsed := env.perfDuration }
  else
    let perf := Application.performShutdown env.perf
    let perfWins := env.perfDuration < env.timeoutMs
    { result := if perfWins then perf.result else false,
      app := { state := ApplicationState.STOPPED,
               shutdownPromise := if perfWins then none else some perf.resolvedWith },
      shutdownsStarted := 1,
      elapsed := min env.perfDuration env.timeoutMs }

/-- Two interleaved callers of stop on one running application, per the
cooperative scheduling model of the source: caller A runs stop from
RUNNING, assigns STOPPING (app.ts line 148) and suspends on the race
(line 152); caller B then calls stop, observes STOPPING and the shutdown
promise created at start (line 110), which resolves with the value
performShutdown hands to the resolver (lines 358 and 368). -/
def Application.concurrentStops (env : StopEnv) : StopResult × StopResult :=
  let pending := some (Application.performShutdown env.perf).resolvedWith
  let first := Application.stop
    { state := ApplicationState.RUNNING, shutdownPromise := pending } env
  let second := Application.stop
    { state := ApplicationState.STOPPING, shutdownPromise := pending } env
  (first, second)

/-- Environment of one start call: the outcome of loadModules and the
outcome of the Start once-event trigger. registerEventListeners between
the two is pure and cannot fail. -/
structure StartEnv where
  loadModulesResult : Except String Unit
  triggerStartResult : Except String Unit

/-- What one call of Application.start produces: a resolved or rejected
promise and the application state when the call settles. -/
structure StartResult where
  outcome : Except String Unit
  app : Application

/-- Application.start (app.ts lines 100-127). Outside STOPPED it warns
and returns resolved. From STOPPED it assigns STARTING, creates a fresh
shutdown promise whose eventual value is supplied later by the shutdown
resolver, loads the modules, registers listeners and triggers the Start
once-event; on success it assigns RUNNING, and the catch block assigns
STOPPED and rethrows the error. -/
def Application.start (app : Application) (env : StartEnv) : StartResult :=
  if app.state = ApplicationState.STOPPED then
    match env.loadModulesResult with
    | Except.error e =>
        { outcome := Except.error e,
          app := { state := ApplicationState.STOPPED,
                   shutdownPromise := app.shutdownPromise } }
    | Except.ok _ =>
        match env.triggerStartResult with
        | Except.error e =>
            { outcome := Except.error e,
              app := { state := ApplicationState.STOPPED,
                       shutdownPromise := app.shutdownPromise } }
        | Except.ok _ =>
            { outcome := Except.ok (),
              app := { state := ApplicationState.RUNNING,
                       shutdownPromise := app.shutdownPromise } }
  else
    { outcome := Except.ok (), app := app }

/-- A module as registered with the application: its name and the outcome
of its optional initializer. -/
structure ModuleSpec where
  name : String
  initResult : Except String Unit

/-- Application.addModule (app.ts lines 217-237): the module initializer
runs before the push onto this.modules; when it throws, the error is
logged and rethrown, the module is not appended, and the lifecycle state
is untouched since addModule never writes this.state. -/
def Application.addModule (app : Application) (mods : List ModuleSpec)
    (m : ModuleSpec) : Except String (List ModuleSpec) × Application :=
  match m.initResult with
  | Except.error e => (Except.error e, app)
  | Except.ok _ => (Except.ok (mods ++ [m]), app)

/-- Default of ApplicationOptions.gracefulShutdownTimeout set in the
constructor (app.ts line 52). -/
def Application.defaultGracefulShutdownTimeout : Nat := 30000

example :
    (Application.stop { state := ApplicationState.RUNNING, shutdownPromise := none }
      { perf := { triggerStopResult := Except.ok (),
                  moduleCleanupResults := [], moduleUnloadResult := Except.ok () },
        perfDuration := 500, timeoutMs := 50 }).result = false := rfl

/-- Whether an async step rejected. -/
def failed (r : Except String Unit) : Bool :=
  match r with
  | Except.error _ => true
  | Except.ok _ => false

/-- Shutdown scenario from the spec: gracefulShutdownTimeout of 50 ms and
one module whose cleanup sleeps 500 ms and then succeeds, so the full
performShutdown needs 500 ms and every step succeeds. -/
def timeoutCexEnv : StopEnv :=
  { perf := { triggerStopResult := Except.ok (),
              moduleCleanupResults := [Except.ok ()],
              moduleUnloadResult := Except.ok () },
    perfDuration := 500, timeoutMs := 50 }

/-- Shutdown scenario in which performShutdown completes well before the
graceful timeout and every step succeeds. -/
def promptStopEnv : StopEnv :=
  { perf := { triggerStopResult := Except.ok (),
              moduleCleanupResults := [Except.ok ()],
              moduleUnloadResult := Except.ok () },
    perfDuration := 10, timeoutMs := 50 }

/-- A handler that always throws, used as a concrete inner middleware. -/
def errNext : Middleware :=
  fun _ => { trace := [], outcome := Except.error "boom" }

/-- Concrete tick metadata with interval zero. -/
def tickMeta0 : TickMetadata := { name := "t", interval := 0, context := false }

/-- A raw method behavior that throws on every invocation. -/
def alwaysThrow : Nat → HandlerOutcome := fun _ => HandlerOutcome.throws "boom"

/-- A wrapped handler that returns the literal false on every invocation. -/
def falseOnceMw : Nat → MwResult :=
  fun _ => { trace := [], outcome := Except.ok (JSValue.vBool false) }

/-- A wrapped handler that returns the number 0 on every invocation. -/
def zeroMw : Nat → MwResult :=
  fun _ => { trace := [], outcome := Except.ok (JSValue.vNum 0) }

/-- A provider with two tick-annotated methods. -/
def twoTickProvider : List TickMetadata :=
  [tickMeta0, { name := "u", interval := 5, context := true }]

/-- A scheduler that already holds two foreign registrations. -/
def schedBefore : Scheduler := { nextId := 5, active := [1, 2] }

/-- performShutdown returns exactly the boolean it hands to the shutdown
resolver, on both the success path and the catch path. -/
lemma performShutdown_result_eq_resolvedWith (env : PerfEnv) :
    (Application.performShutdown env).result
      = (Application.performShutdown env).resolvedWith := by
  cases htr : env.triggerStopResult with
  | error e => simp [Application.performShutdown, htr]
  | ok u =>
      cases hmu : env.moduleUnloadResult with
      | error e => simp [Application.performShutdown, htr, hmu]
      | ok u2 => simp [Application.performShutdown, htr, hmu]

/-- C1, counterexample. With gracefulShutdownTimeout 50 ms and a module
cleanup lasting 500 ms, the first caller of stop observes false because
the timeout branch wins the race, while a second caller that entered
during STOPPING awaits the in-flight shutdown promise and observes true,
the value performShutdown resolves it with. The two callers therefore do
not observe the same boolean, refuting the claim as stated. -/
theorem stop_second_caller_differs :
    (Application.concurrentStops timeoutCexEnv).1.result = false
    ∧ (Application.concurrentStops timeoutCexEnv).2.result = true
    ∧ (Application.concurrentStops timeoutCexEnv).1.result
        ≠ (Application.concurrentStops timeoutCexEnv).2.result := by
  refine ⟨rfl, rfl, ?_⟩
  intro h
  simp [Application.concurrentStops, Application.stop, timeoutCexEnv,
    Application.performShutdown] at h

/-- C1, amended. Calling stop when the state is STOPPED returns true
immediately without starting any shutdown work, and calling stop while
the state is STOPPING returns the resolution of the in-flight shutdown
promise, the value performShutdown hands to the resolver, without
starting a second shutdown, so across two concurrent callers exactly one
performShutdown runs and module cleanup and listener removal occur
exactly once; whenever performShutdown completes strictly before the
graceful timeout, the second caller observes the same boolean as the
first. -/
theorem stop_idempotent_amended (env : StopEnv) (p : Option Bool) :
    Application.stop { state := ApplicationState.STOPPED, shutdownPromise := p } env
      = { result := true,
          app := { state := ApplicationState.STOPPED, shutdownPromise := p },
          shutdownsStarted := 0, elapsed := 0 }
    ∧ (Application.concurrentStops env).2.result
        = (Application.performShutdown env.perf).resolvedWith
    ∧ (Application.concurrentStops env).2.shutdownsStarted = 0
    ∧ (Application.concurrentStops env).1.shutdownsStarted
        + (Application.concurrentStops env).2.shutdownsStarted = 1
    ∧ (env.perfDuration < env.timeoutMs →
        (Application.concurrentStops env).1.result
          = (Application.concurrentStops env).2.result) := by
  refine ⟨rfl, rfl, rfl, rfl, ?_⟩
  intro h
  simp [Application.concurrentStops, Application.stop, h,
    performShutdown_result_eq_resolvedWith]

/-- C1, witness for the amended theorem at a concrete scenario in which
performShutdown wins the race. -/
theorem stop_idempotent_amended_witness :
    (Application.concurrentStops promptStopEnv).1.result
      = (Application.concurrentStops promptStopEnv).2.result :=
  (stop_idempotent_amended promptStopEnv none).2.2.2.2 (by decide)

/-- C2. From RUNNING, stop races performShutdown against the graceful
timer and resolves with the winner, never rejecting: across every
environment, including ones whose shutdown steps all fail, the caller
receives a plain boolean, false whenever the timer fires strictly before
performShutdown completes, and in that case stop resolves at the timeout
rather than when the shutdown work finishes; the constructor default of
gracefulShutdownTimeout is 30000 ms. -/
theorem stop_races_timeout (env : StopEnv) (p : Option Bool) :
    (Application.stop { state := ApplicationState.RUNNING, shutdownPromise := p } env).result
        = (if env.perfDuration < env.timeoutMs
            then (Application.performShutdown env.perf).result else false)
    ∧ (Application.stop { state := ApplicationState.RUNNING, shutdownPromise := p } env).elapsed
        = min env.perfDuration env.timeoutMs
    ∧ (env.timeoutMs < env.perfDuration →
        (Application.stop { state := ApplicationState.RUNNING, shutdownPromise := p } env).result
            = false
        ∧ (Application.stop { state := ApplicationState.RUNNING, shutdownPromise := p } env).elapsed
            = env.timeoutMs)
    ∧ Application.defaultGracefulShutdownTimeout = 30000 := by
  refine ⟨rfl, rfl, ?_, rfl⟩
  intro h
  constructor
  · simp [Application.stop, Nat.lt_asymm h]
  · simp [Application.stop, Nat.min_eq_right (Nat.le_of_lt h)]

/-- C2, witness at the concrete scenario with timeout 50 ms and a
shutdown lasting 500 ms. -/
theorem stop_races_timeout_witness :
    (Application.stop { state := ApplicationState.RUNNING, shutdownPromise := none }
        timeoutCexEnv).result = false
    ∧ (Application.stop { state := ApplicationState.RUNNING, shutdownPromise := none }
        timeoutCexEnv).elapsed = timeoutCexEnv.timeoutMs :=
  (stop_races_timeout timeoutCexEnv none).2.2.1 (by decide)

/-- C3. When any step of start fails, the rejected step propagates its
error to the caller of start and the state is reverted to STOPPED rather
than left in STARTING; likewise a module whose initializer throws makes
addModule rethrow that error while the application state is untouched, so
a caller that registered it while STOPPED still observes STOPPED. -/
theorem start_failure_reverts (app : Application) (env : StartEnv)
    (h : app.state = ApplicationState.STOPPED)
    (hf : failed env.loadModulesResult = true ∨ failed env.triggerStartResult = true) :
    failed (Application.start app env).outcome = true
    ∧ (Application.start app env).app.state = ApplicationState.STOPPED
    ∧ (∀ e, env.loadModulesResult = Except.error e →
        (Application.start app env).outcome = Except.error e)
    ∧ (∀ e, env.loadModulesResult = Except.ok () →
        env.triggerStartResult = Except.error e →
        (Application.start app env).outcome = Except.error e)
    ∧ (∀ mods m e, m.initResult = Except.error e →
        (Application.addModule app mods m).1 = Except.error e
        ∧ (Application.addModule app mods m).2 = app) := by
  obtain ⟨st, sp⟩ := app
  simp only at h
  subst h
  refine ⟨?_, ?_, ?_, ?_, ?_⟩
  · cases hl : env.loadModulesResult with
    | error e => simp [Application.start, hl, failed]
    | ok u =>
        cases ht : env.triggerStartResult with
        | error e => simp [Application.start, hl, ht, failed]
        | ok u2 => simp [failed, hl, ht] at hf
  · cases hl : env.loadModulesResult with
    | error e => simp [Application.start, hl]
    | ok u =>
        cases ht : env.triggerStartResult with
        | error e => simp [Application.start, hl, ht]
        | ok u2 => simp [failed, hl, ht] at hf
  · intro e hl
    simp [Application.start, hl]
  · intro e hl ht
    simp [Application.start, hl, ht]
  · intro mods m e hm
    simp [Application.addModule, hm]

/-- C3, witness: a start whose module loading fails with a concrete
error. -/
theorem start_failure_reverts_witness :
    failed (Application.start { state := ApplicationState.STOPPED, shutdownPromise := none }
        { loadModulesResult := Except.error "boom",
          triggerStartResult := Except.ok () }).outcome = true
    ∧ (Application.start { state := ApplicationState.STOPPED, shutdownPromise := none }
        { loadModulesResult := Except.error "boom",
          triggerStartResult := Except.ok () }).app.state = ApplicationState.STOPPED := by
  have h := start_failure_reverts
    { state := ApplicationState.STOPPED, shutdownPromise := none }
    { loadModulesResult := Except.error "boom", triggerStartResult := Except.ok () }
    rfl (Or.inl rfl)
  exact ⟨h.1, h.2.1⟩

/-- C8. Whenever stop is called on a running application, the state
observed after stop returns is STOPPED for every environment, including
those in which the timeout branch wins the race and stop returns false
and those in which every shutdown step fails. -/
theorem stop_from_running_reaches_stopped (env : StopEnv) (p : Option Bool) :
    (Application.stop { state := ApplicationState.RUNNING, shutdownPromise := p } env).app.state
      = ApplicationState.STOPPED := rfl

/-- C6. For every invocation of a context-middleware-wrapped handler of
either family, the trace is the inner trace bracketed by exactly one
Context start before the forwarded call and one Context stop after it,
on the normal path and the exception path alike, the outcome of the
forwarded call passes through unchanged, and the Context object is
prepended to the forwarded arguments exactly when the metadata declares
context. -/
theorem context_bracketing (event : EventMetadata) (tick : TickMetadata)
    (next : Middleware) (args : List JSValue) :
    (ContextEventMiddlewareFactory.create event next args).trace
        = TraceEvent.ctxStart :: (next (eventForward event args)).trace
            ++ [TraceEvent.ctxStop]
    ∧ (ContextEventMiddlewareFactory.create event next args).outcome
        = (next (eventForward event args)).outcome
    ∧ (event.context = false → eventForward event args = args)
    ∧ (event.context = true →
        eventForward event args
          = JSValue.vContext (event.name ++ "_" ++ event.methodName) "event" :: args)
    ∧ (ContextTickMiddlewareFactory.create tick next args).trace
        = TraceEvent.ctxStart :: (next (tickForward tick args)).trace
            ++ [TraceEvent.ctxStop]
    ∧ (ContextTickMiddlewareFactory.create tick next args).outcome
        = (next (tickForward tick args)).outcome
    ∧ (tick.context = false → tickForward tick args = args)
    ∧ (tick.context = true →
        tickForward tick args = JSValue.vContext (tick.name) "tick" :: args) := by
  refine ⟨rfl, rfl, ?_, ?_, rfl, rfl, ?_, ?_⟩
  · intro h; simp [eventForward, h]
  · intro h; simp [eventForward, h]
  · intro h; simp [tickForward, h]
  · intro h; simp [tickForward, h]

/-- C6, witness at concrete metadata: an event handler declaring context
false receives its arguments unchanged, a tick handler declaring context
true receives the fresh Context prepended. -/
theorem context_bracketing_witness :
    eventForward { name := "ping", methodName := "m", context := false }
        [JSValue.vNum 1] = [JSValue.vNum 1]
    ∧ tickForward { name := "t", interval := 5, context := true } []
        = [JSValue.vContext ("t") "tick"] :=
  ⟨(context_bracketing { name := "ping", methodName := "m", context := false }
      { name := "t", interval := 5, context := true }
      (handlerMw (HandlerOutcome.returns JSValue.vNull)) [JSValue.vNum 1]).2.2.1 rfl,
   (context_bracketing { name := "ping", methodName := "m", context := false }
      { name := "t", interval := 5, context := true }
      (handlerMw (HandlerOutcome.returns JSValue.vNull)) []).2.2.2.2.2.2.2 rfl⟩

/-- C10. When the forwarded handler throws, both context middlewares stop
the Context, which is the last trace event, and re-raise the same
exception to the next outer layer instead of catching it. -/
theorem context_reraise (event : EventMetadata) (tick : TickMetadata)
    (next : Middleware) (args : List JSValue) (e : String)
    (hE : (next (eventForward event args)).outcome = Except.error e)
    (hT : (next (tickForward tick args)).outcome = Except.error e) :
    (ContextEventMiddlewareFactory.create event next args).outcome = Except.error e
    ∧ (ContextEventMiddlewareFactory.create event next args).trace.getLast?
        = some TraceEvent.ctxStop
    ∧ (ContextTickMiddlewareFactory.create tick next args).outcome = Except.error e
    ∧ (ContextTickMiddlewareFactory.create tick next args).trace.getLast?
        = some TraceEvent.ctxStop := by
  refine ⟨hE, ?_, hT, ?_⟩
  · show (TraceEvent.ctxStart :: ((next (eventForward event args)).trace
      ++ [TraceEvent.ctxStop])).getLast? = some TraceEvent.ctxStop
    rw [← List.cons_append, List.getLast?_concat]
  · show (TraceEvent.ctxStart :: ((next (tickForward tick args)).trace
      ++ [TraceEvent.ctxStop])).getLast? = some TraceEvent.ctxStop
    rw [← List.cons_append, List.getLast?_concat]

/-- C10, witness with a concrete always-throwing handler. -/
theorem context_reraise_witness :
    (ContextEventMiddlewareFactory.create
        { name := "ping", methodName := "m", context := false } errNext []).outcome
      = Except.error "boom"
    ∧ (ContextEventMiddlewareFactory.create
        { name := "ping", methodName := "m", context := false } errNext []).trace.getLast?
      = some TraceEvent.ctxStop
    ∧ (ContextTickMiddlewareFactory.create
        { name := "t", interval := 0, context := true } errNext []).outcome
      = Except.error "boom"
    ∧ (ContextTickMiddlewareFactory.create
        { name := "t", interval := 0, context := true } errNext []).trace.getLast?
      = some TraceEvent.ctxStop :=
  context_reraise { name := "ping", methodName := "m", context := false }
    { name := "t", interval := 0, context := true } errNext [] "boom" rfl rfl

/-- strictEqFalse accepts exactly the boolean false. -/
lemma strictEqFalse_eq_true_iff (v : JSValue) :
    strictEqFalse v = true ↔ v = JSValue.vBool false := by
  cases v with
  | vBool b => cases b <;> simp [strictEqFalse]
  | vNull => simp [strictEqFalse]
  | vUndefined => simp [strictEqFalse]
  | vNum n => simp [strictEqFalse]
  | vStr s => simp [strictEqFalse]
  | vContext l k => simp [strictEqFalse]

/-- A cleared tick task is not invoked by a scheduler iteration. -/
lemma tickStep_unarmed (interval : Nat) (mw : Nat → MwResult) (s : TickState)
    (h : s.armed = false) : tickStep interval mw s = s := by
  simp [tickStep, h]

/-- A cleared tick task stays untouched over any number of scheduler
iterations. -/
lemma runTicks_unarmed (interval : Nat) (mw : Nat → MwResult) (n : Nat)
    (s : TickState) (h : s.armed = false) : runTicks interval mw n s = s := by
  induction n generalizing s with
  | zero => rfl
  | succ n ih =>
      rw [runTicks, tickStep_unarmed interval mw s h]
      exact ih s h

/-- An armed tick task attempts exactly one handler invocation per
scheduler iteration, whatever the outcome. -/
lemma tickStep_invocations_of_armed (interval : Nat) (mw : Nat → MwResult)
    (s : TickState) (h : s.armed = true) :
    (tickStep interval mw s).invocations = s.invocations + 1 := by
  cases ho : (mw s.invocations).outcome with
  | ok v => by_cases hs : strictEqFalse v = true <;> simp [tickStep, h, ho, hs]
  | error e => simp [tickStep, h, ho]

/-- The full middleware chain turns a throwing raw method into a logged
error and an undefined result: the context middleware re-raises, the
logging middleware catches, logs once and yields undefined. -/
lemma wrappedTick_throws (tick : TickMetadata) (beh : Nat → HandlerOutcome)
    (n : Nat) (e : String) (h : beh n = HandlerOutcome.throws e) :
    wrappedTick tick beh n
      = { trace := [TraceEvent.ctxStart, TraceEvent.ctxStop, TraceEvent.errorLogged],
          outcome := Except.ok JSValue.vUndefined } := by
  simp [wrappedTick, ChainMiddlewareTickFactory.create, LogMiddlewareFactory.create,
    ContextTickMiddlewareFactory.create, handlerMw, h]

/-- Generalized form of the throwing-handler property: from any armed
state, n scheduler iterations of a task whose raw method always throws
leave the task armed and add exactly n invocation attempts and n logged
errors. -/
lemma throwing_ticks_general (tick : TickMetadata) (beh : Nat → HandlerOutcome)
    (hb : ∀ n, ∃ e, beh n = HandlerOutcome.throws e) (n : Nat)
    (s : TickState) (hA : s.armed = true) :
    (runTicks tick.interval (wrappedTick tick beh) n s).armed = true
    ∧ (runTicks tick.interval (wrappedTick tick beh) n s).invocations
        = s.invocations + n
    ∧ (runTicks tick.interval (wrappedTick tick beh) n s).errorsLogged
        = s.errorsLogged + n := by
  induction n generalizing s with
  | zero => exact ⟨hA, rfl, rfl⟩
  | succ n ih =>
      obtain ⟨e, he⟩ := hb s.invocations
      have hc : countErrorLogged
          [TraceEvent.ctxStart, TraceEvent.ctxStop, TraceEvent.errorLogged] = 1 := rfl
      have h1 : (tickStep tick.interval (wrappedTick tick beh) s).armed = true := by
        simp [tickStep, hA, wrappedTick_throws tick beh s.invocations e he,
          strictEqFalse]
      have h2 : (tickStep tick.interval (wrappedTick tick beh) s).invocations
          = s.invocations + 1 := by
        simp [tickStep, hA, wrappedTick_throws tick beh s.invocations e he,
          strictEqFalse]
      have h3 : (tickStep tick.interval (wrappedTick tick beh) s).errorsLogged
          = s.errorsLogged + 1 := by
        simp [tickStep, hA, wrappedTick_throws tick beh s.invocations e he,
          strictEqFalse, hc]
      rw [runTicks]
      obtain ⟨ih1, ih2, ih3⟩ := ih (tickStep tick.interval (wrappedTick tick beh) s) h1
      refine ⟨ih1, ?_, ?_⟩
      · rw [ih2, h2]; omega
      · rw [ih3, h3]; omega

/-- C4. A tick task whose raw method throws on every invocation is not
halted by the scheduler: the tick body catches each exception, so after N
iterations there have been exactly N invocation attempts, the middleware
chain has logged exactly N errors, and the registration is still armed;
only the literal false return value ever halts the cycle. -/
theorem throwing_handler_keeps_scheduler_armed (tick : TickMetadata)
    (beh : Nat → HandlerOutcome)
    (hb : ∀ n, ∃ e, beh n = HandlerOutcome.throws e) (N : Nat) :
    (runTicks tick.interval (wrappedTick tick beh) N initTickState).armed = true
    ∧ (runTicks tick.interval (wrappedTick tick beh) N initTickState).invocations = N
    ∧ (runTicks tick.interval (wrappedTick tick beh) N initTickState).errorsLogged = N := by
  have h := throwing_ticks_general tick beh hb N initTickState rfl
  simpa [initTickState] using h

/-- C4, witness after three iterations of an always-throwing handler. -/
theorem throwing_handler_keeps_scheduler_armed_witness :
    (runTicks tickMeta0.interval (wrappedTick tickMeta0 alwaysThrow) 3 initTickState).armed
        = true
    ∧ (runTicks tickMeta0.interval (wrappedTick tickMeta0 alwaysThrow) 3
        initTickState).invocations = 3
    ∧ (runTicks tickMeta0.interval (wrappedTick tickMeta0 alwaysThrow) 3
        initTickState).errorsLogged = 3 :=
  throwing_handler_keeps_scheduler_armed tickMeta0 alwaysThrow
    (fun _ => ⟨"boom", rfl⟩) 3

/-- C5. If the wrapped handler of an armed tick task resolves with the
literal false, the task clears its own registration and no later
scheduler iteration invokes it again; on any other resolution, and on a
caught exception, the task stays armed and the iteration ends by sleeping
for the declared interval when it is positive and by yielding with no
delay when the interval is zero. -/
theorem false_sentinel_cancels (interval : Nat) (mw : Nat → MwResult)
    (s : TickState) (hA : s.armed = true) :
    ((mw s.invocations).outcome = Except.ok (JSValue.vBool false) →
        (tickStep interval mw s).armed = false
        ∧ ∀ n, runTicks interval mw n (tickStep interval mw s)
            = tickStep interval mw s)
    ∧ (∀ v, (mw s.invocations).outcome = Except.ok v → strictEqFalse v = false →
        (tickStep interval mw s).armed = true
        ∧ (tickStep interval mw s).lastDelay
            = (if interval > 0 then interval else 0))
    ∧ (∀ e, (mw s.invocations).outcome = Except.error e →
        (tickStep interval mw s).armed = true
        ∧ (tickStep interval mw s).lastDelay
            = (if interval > 0 then interval else 0)) := by
  refine ⟨?_, ?_, ?_⟩
  · intro hv
    have harm : (tickStep interval mw s).armed = false := by
      simp [tickStep, hA, hv, strictEqFalse]
    exact ⟨harm, fun n => runTicks_unarmed interval mw n _ harm⟩
  · intro v hv hsf
    constructor <;> simp [tickStep, hA, hv, hsf]
  · intro e he
    constructor <;> simp [tickStep, hA, he]

/-- C5, witness: a handler resolving false is cancelled and five further
scheduler iterations change nothing. -/
theorem false_sentinel_cancels_witness :
    (tickStep 7 falseOnceMw initTickState).armed = false
    ∧ runTicks 7 falseOnceMw 5 (tickStep 7 falseOnceMw initTickState)
        = tickStep 7 falseOnceMw initTickState :=
  have h := (false_sentinel_cancels 7 falseOnceMw initTickState rfl).1 rfl
  ⟨h.1, h.2 5⟩

/-- C9. The cancellation check of the tick body uses strict equality with
false: an armed task is cleared by an invocation exactly when the
resolved value is the boolean false, and for any other value, including
the falsy values undefined, null, 0 and the empty string, the task stays
armed and is invoked again on the following iteration. -/
theorem strict_false_check (interval : Nat) (mw : Nat → MwResult)
    (s : TickState) (v : JSValue)
    (hA : s.armed = true) (hv : (mw s.invocations).outcome = Except.ok v) :
    ((tickStep interval mw s).armed = false ↔ v = JSValue.vBool false)
    ∧ (v ≠ JSValue.vBool false →
        (runTicks interval mw 1 (tickStep interval mw s)).invocations
          = s.invocations + 2) := by
  by_cases hveq : v = JSValue.vBool false
  · subst hveq
    constructor
    · simp [tickStep, hA, hv, strictEqFalse]
    · intro hcon; exact absurd rfl hcon
  · have hfalse : strictEqFalse v = false := by
      cases h2 : strictEqFalse v
      · rfl
      · exact absurd ((strictEqFalse_eq_true_iff v).mp h2) hveq
    have harmed : (tickStep interval mw s).armed = true := by
      simp [tickStep, hA, hv, hfalse]
    have hinv1 : (tickStep interval mw s).invocations = s.invocations + 1 := by
      simp [tickStep, hA, hv, hfalse]
    constructor
    · simp [harmed, hveq]
    · intro _
      show (tickStep interval mw (tickStep interval mw s)).invocations
        = s.invocations + 2
      rw [tickStep_invocations_of_armed interval mw _ harmed, hinv1]

/-- C9, witness: a handler resolving the number 0 leaves the task armed
and it runs again on the next iteration. -/
theorem strict_false_check_witness :
    ((tickStep 0 zeroMw initTickState).armed = false
        ↔ JSValue.vNum 0 = JSValue.vBool false)
    ∧ (runTicks 0 zeroMw 1 (tickStep 0 zeroMw initTickState)).invocations
        = initTickState.invocations + 2 :=
  have h := strict_false_check 0 zeroMw initTickState (JSValue.vNum 0) rfl rfl
  ⟨h.1, h.2 (by decide)⟩

/-- clearAll changes only the active list, in the way clearActiveList
describes. -/
lemma clearAll_active_eq (ids : List Nat) (s : Scheduler) :
    (clearAll ids s).active = clearActiveList ids s.active := by
  induction ids generalizing s with
  | nil => rfl
  | cons i rest ih =>
      show (clearAll rest (clearTick i s)).active = _
      rw [ih (clearTick i s)]
      rfl

/-- Cancelling handles never adds an active registration. -/
lemma clearActiveList_subset (ids : List Nat) (act : List Nat) :
    ∀ a ∈ clearActiveList ids act, a ∈ act := by
  induction ids generalizing act with
  | nil => intro a ha; exact ha
  | cons i rest ih =>
      intro a ha
      have hmem := ih (act.filter (fun y => y != i)) a ha
      exact (List.mem_filter.mp hmem).1

/-- Splitting a handle list splits the cancellation fold. -/
lemma clearActiveList_append (a b : List Nat) (act : List Nat) :
    clearActiveList (a ++ b) act = clearActiveList b (clearActiveList a act) := by
  simp [clearActiveList, List.foldl_append]

/-- Cancelling handles that all differ from a trailing registration
leaves that registration in place. -/
lemma clearActiveList_append_fresh (ids : List Nat) (act : List Nat) (x : Nat)
    (h : ∀ id ∈ ids, id ≠ x) :
    clearActiveList ids (act ++ [x]) = clearActiveList ids act ++ [x] := by
  induction ids generalizing act with
  | nil => rfl
  | cons i rest ih =>
      have hxi : (x != i) = true := by
        simp only [bne_iff_ne]
        exact Ne.symm (h i (List.mem_cons_self i rest))
      show clearActiveList rest ((act ++ [x]).filter (fun y => y != i)) = _
      rw [List.filter_append]
      have hone : [x].filter (fun y => y != i) = [x] := by simp [hxi]
      rw [hone]
      exact ih (act.filter (fun y => y != i))
        (fun id hid => h id (List.mem_cons_of_mem i hid))

/-- Generalized round trip: loading a provider and then cancelling the
whole handle collection returns the active-registration list to what
cancelling the previously stored handles alone would give, provided all
pre-existing handles are below the allocation counter. -/
lemma load_then_clear (ms : List TickMetadata) (l : TickLoaderState) (s : Scheduler)
    (hact : ∀ id ∈ s.active, id < s.nextId)
    (hticks : ∀ id ∈ l.ticks, id < s.nextId) :
    (clearAll (TickLoader.load ms l s).1.ticks (TickLoader.load ms l s).2).active
      = (clearAll l.ticks s).active := by
  induction ms generalizing l s with
  | nil => rfl
  | cons m rest ih =>
      have hstep : TickLoader.load (m :: rest) l s
          = TickLoader.load rest { ticks := l.ticks ++ [s.nextId] }
              { nextId := s.nextId + 1, active := s.active ++ [s.nextId] } := rfl
      rw [hstep]
      have hact1 : ∀ id ∈ (Scheduler.mk (s.nextId + 1) (s.active ++ [s.nextId])).active,
          id < (Scheduler.mk (s.nextId + 1) (s.active ++ [s.nextId])).nextId := by
        intro id hid
        rcases List.mem_append.mp hid with hmem | hmem
        · exact Nat.lt_succ_of_lt (hact id hmem)
        · rw [List.mem_singleton.mp hmem]; exact Nat.lt_succ_self _
      have hticks1 : ∀ id ∈ (TickLoaderState.mk (l.ticks ++ [s.nextId])).ticks,
          id < (Scheduler.mk (s.nextId + 1) (s.active ++ [s.nextId])).nextId := by
        intro id hid
        rcases List.mem_append.mp hid with hmem | hmem
        · exact Nat.lt_succ_of_lt (hticks id hmem)
        · rw [List.mem_singleton.mp hmem]; exact Nat.lt_succ_self _
      rw [ih { ticks := l.ticks ++ [s.nextId] }
        { nextId := s.nextId + 1, active := s.active ++ [s.nextId] } hact1 hticks1]
      rw [clearAll_active_eq, clearAll_active_eq]
      show clearActiveList (l.ticks ++ [s.nextId]) (s.active ++ [s.nextId])
        = clearActiveList l.ticks s.active
      rw [clearActiveList_append]
      rw [clearActiveList_append_fresh l.ticks s.active s.nextId
        (fun id hid => Nat.ne_of_lt (hticks id hid))]
      show (clearActiveList l.ticks s.active ++ [s.nextId]).filter
          (fun y => y != s.nextId) = clearActiveList l.ticks s.active
      rw [List.filter_append]
      have hone : [s.nextId].filter (fun y => y != s.nextId) = [] := by simp
      rw [hone, List.append_nil]
      apply List.filter_eq_self.mpr
      intro a ha
      have hmem := clearActiveList_subset l.ticks s.active a ha
      simp only [bne_iff_ne]
      exact Nat.ne_of_lt (hact a hmem)

/-- C7. For every provider, loading it into a TickLoader whose handle
collection is empty and then immediately unloading cancels every handle
the load stored and clears the collection, so the active registrations of
the scheduler are exactly what they were before the load; the hypothesis
states the scheduler allocation invariant that every live handle is below
the allocation counter. -/
theorem load_unload_roundtrip (ms : List TickMetadata) (s : Scheduler)
    (hact : ∀ id ∈ s.active, id < s.nextId) :
    (TickLoader.unload (TickLoader.load ms { ticks := [] } s).1
        (TickLoader.load ms { ticks := [] } s).2).2.active = s.active
    ∧ (TickLoader.unload (TickLoader.load ms { ticks := [] } s).1
        (TickLoader.load ms { ticks := [] } s).2).1.ticks = [] := by
  constructor
  · have h := load_then_clear ms { ticks := [] } s hact (by intro id hid; cases hid)
    simpa [TickLoader.unload, clearAll] using h
  · rfl

/-- C7, witness: a provider with two tick methods loaded into a scheduler
already holding two foreign registrations. -/
theorem load_unload_roundtrip_witness :
    (TickLoader.unload (TickLoader.load twoTickProvider { ticks := [] } schedBefore).1
        (TickLoader.load twoTickProvider { ticks := [] } schedBefore).2).2.active
      = schedBefore.active
    ∧ (TickLoader.unload (TickLoader.load twoTickProvider { ticks := [] } schedBefore).1
        (TickLoader.load twoTickProvider { ticks := [] } schedBefore).2).1.ticks = [] :=
  load_unload_roundtrip twoTickProvider schedBefore (by decide)
